import Mathlib

/-!
Verification development for the props-scraper extraction engine.

The TypeScript source is shallowly embedded: JavaScript strings are Lean
Strings (processed as char lists), JS numbers are rationals (every numeric
value appearing in the verified properties is exactly representable in
binary64, so ℚ is a faithful model on those inputs), fallible parsing
returns Option, page reads (bulk DOM read, per-iteration visible rows) are
passed in as explicit inputs, and the Postgres store is an explicit list of
persisted records.
-/

namespace PropsScraper

/-- Characters treated as whitespace by the JS regex class \s and by trim. -/
def jsWhitespace (c : Char) : Bool :=
  c == ' ' || c == '\t' || c == '\n' || c == '\r' ||
  c.val == 11 || c.val == 12 || c.val == 160

/-- Drop whitespace from both ends of a char list. -/
def trimChars (l : List Char) : List Char :=
  ((l.dropWhile jsWhitespace).reverse.dropWhile jsWhitespace).reverse

/-- Embedding of String.prototype.trim(). -/
def trimJs (s : String) : String :=
  String.mk (trimChars s.data)

/-- Lowercase a string (ASCII, which covers every header the source matches). -/
def toLowerStr (s : String) : String :=
  String.mk (s.data.map Char.toLower)

/-- The JS word-character class \w. -/
def isWordChar (c : Char) : Bool :=
  c.isAlphanum || c == '_'

/-- Uppercase ASCII letter, the regex class [A-Z]. -/
def isUpperAZ (c : Char) : Bool :=
  'A' ≤ c && c ≤ 'Z'

/-- Numeric value of a digit string. -/
def natOfDigits (l : List Char) : Nat :=
  l.foldl (fun a c => a * 10 + (c.toNat - 48)) 0

/-- Embedding of the JS Number() conversion on the cleaned strings the
parsers produce (alphabet 0-9, dot, plus, minus): optional sign, digits
with at most one decimal point, at least one digit; NaN is none. -/
def jsNumParse (l : List Char) : Option ℚ :=
  if l.isEmpty then some 0
  else
    let signed : Bool × List Char :=
      match l with
      | '-' :: r => (true, r)
      | '+' :: r => (false, r)
      | _ => (false, l)
    let neg := signed.1
    let rest := signed.2
    let d1 := rest.takeWhile Char.isDigit
    let r1 := rest.dropWhile Char.isDigit
    let v : Option ℚ :=
      match r1 with
      | [] => if d1.isEmpty then none else some (Rat.divInt (natOfDigits d1) 1)
      | '.' :: r2 =>
        let d2 := r2.takeWhile Char.isDigit
        if !(r2.dropWhile Char.isDigit).isEmpty then none
        else if d1.isEmpty && d2.isEmpty then none
        else some (Rat.divInt (natOfDigits d1 * 10 ^ d2.length + natOfDigits d2) (10 ^ d2.length))
      | _ => none
    v.map (fun q => if neg then -q else q)

/-- Decimal digits of a fraction num/den, fuel-bounded. -/
def fracDigits (fuel num den : Nat) : List Char :=
  match fuel with
  | 0 => []
  | fuel + 1 =>
    if num = 0 then []
    else Char.ofNat (48 + num * 10 / den) :: fracDigits fuel (num * 10 % den) den

/-- Embedding of JS String(n) for the numbers the scraper stores (decimal
fractions): integers render without a decimal point. -/
def ratToJsString (q : ℚ) : String :=
  let sign := if q.num < 0 then "-" else ""
  let n := q.num.natAbs
  let frac := fracDigits 40 (n % q.den) q.den
  sign ++ toString (n / q.den) ++ (if frac.isEmpty then "" else "." ++ String.mk frac)

/-- Keep only characters satisfying p (the JS replace of the complement
class with the empty string). -/
def keepChars (p : Char → Bool) (s : String) : String :=
  String.mk (s.data.filter p)

/-- Normalize the Unicode minus sign U+2212 to the ASCII hyphen. -/
def replaceUnicodeMinus (s : String) : String :=
  String.mk (s.data.map (fun c => if c = '−' then '-' else c))

/-- Characters kept by the odds cleaner: [0-9.+-]. -/
def oddsKeep (c : Char) : Bool :=
  c.isDigit || c == '.' || c == '+' || c == '-'

/-- Characters kept by the line/number cleaners: [0-9.-]. -/
def lineKeep (c : Char) : Bool :=
  c.isDigit || c == '.' || c == '-'

/-- The cleaning stage of parseOdds. -/
def cleanOdds (text : String) : String :=
  keepChars oddsKeep (replaceUnicodeMinus (trimJs text))

/-- Embedding of parseOdds from the scraper helpers. -/
def parseOdds (text : String) : Option ℚ :=
  if text = "" then none
  else
    let cleaned := cleanOdds text
    if cleaned = "" ∨ cleaned = "-" ∨ cleaned = "+" then none
    else jsNumParse cleaned.data

/-- The leading over/under marker strip of parseLine: regex ^[OUou]\s*. -/
def stripOUPrefix (s : String) : String :=
  match s.data with
  | [] => s
  | c :: rest =>
    if c = 'O' ∨ c = 'U' ∨ c = 'o' ∨ c = 'u' then
      String.mk (rest.dropWhile jsWhitespace)
    else s

/-- The cleaning stage of parseLine. -/
def cleanLine (text : String) : String :=
  keepChars lineKeep (stripOUPrefix (trimJs text))

/-- Embedding of parseLine from the scraper helpers. -/
def parseLine (text : String) : Option ℚ :=
  if text = "" then none
  else
    let cleaned := cleanLine text
    if cleaned = "" then none
    else jsNumParse cleaned.data

/-- The cleaning stage of parseNumber (the percent and comma strips are
subsumed by the final character filter, which removes both). -/
def cleanNumber (text : String) : String :=
  keepChars lineKeep (replaceUnicodeMinus (trimJs text))

/-- Embedding of parseNumber from the scraper helpers. -/
def parseNumber (text : String) : Option ℚ :=
  if text = "" then none
  else
    let cleaned := cleanNumber text
    if cleaned = "" ∨ cleaned = "-" then none
    else jsNumParse cleaned.data

example : parseOdds ("−110") = some (-(Rat.divInt 110 1)) := rfl
example : parseOdds ("+120") = some (Rat.divInt 120 1) := rfl
example : parseLine ("O 25.5") = some (Rat.divInt 255 10) := rfl
example : parseNumber ("12,345") = some (Rat.divInt 12345 1) := rfl
example : parseNumber ("47%") = some (Rat.divInt 47 1) := rfl
example : parseOdds ("") = none := rfl
example : ratToJsString (Rat.divInt 255 10) = "25.5" := rfl
example : ratToJsString (-(Rat.divInt 110 1)) = "-110" := rfl

/-! Player cell sub-parsing (parsePlayerCell in the scraper). -/

/-- Collapse runs of two or more whitespace characters into one space
(the regex replace of \s spans of length at least 2). -/
def collapseWsFuel : Nat → List Char → List Char
  | 0, _ => []
  | _, [] => []
  | fuel + 1, c :: rest =>
    if jsWhitespace c then
      match rest with
      | d :: _ =>
        if jsWhitespace d then ' ' :: collapseWsFuel fuel (rest.dropWhile jsWhitespace)
        else c :: collapseWsFuel fuel rest
      | [] => [c]
    else c :: collapseWsFuel fuel rest

/-- Entry point of the whitespace-run collapse (the fuel never runs out
because each step consumes at least one character). -/
def collapseWs (l : List Char) : List Char :=
  collapseWsFuel l.length l

/-- Split a char list on a separator character (the JS split). -/
def splitOnChar (sep : Char) : List Char → List (List Char)
  | [] => [[]]
  | c :: rest =>
    let r := splitOnChar sep rest
    if c = sep then [] :: r
    else
      match r with
      | [] => [[c]]
      | g :: gs => (c :: g) :: gs

/-- Split on newlines, trim each line, drop empties — the lines
preprocessing of parsePlayerCell. -/
def playerCellLines (text : String) : List String :=
  (((splitOnChar '\n' text.data).map trimChars).map String.mk).filter (fun l => l ≠ "")

/-- The team-line regex of parsePlayerCell: 2 to 4 capital letters, then
optional whitespace, a pipe, optional whitespace and a word character,
anchored at the start; the capture is the (greedy, longest-first) letter
prefix. -/
def teamLineMatch (line : String) : Option String :=
  let l := line.data
  let tryLen : Nat → Option String := fun k =>
    if (l.take k).length = k ∧ (l.take k).all isUpperAZ then
      match (l.drop k).dropWhile jsWhitespace with
      | '|' :: r =>
        match r.dropWhile jsWhitespace with
        | c :: _ => if isWordChar c then some (String.mk (l.take k)) else none
        | [] => none
      | _ => none
    else none
  (tryLen 4).orElse (fun _ => (tryLen 3).orElse (fun _ => tryLen 2))

/-- The closed set of status abbreviations, in the alternation order of the
status regex of parsePlayerCell. -/
def statusAlternatives : List String :=
  ["OUT", "GTD", "DTD", "DOUBT", "PROB", "QUES", "SUSP", "INJ"]

/-- Case-insensitive prefix test. -/
def ciPrefix (pat : List Char) (l : List Char) : Bool :=
  (pat.map Char.toLower).isPrefixOf (l.map Char.toLower)

/-- Match one status alternative at the current position, with word
boundaries on both sides (prev is the preceding character, if any). -/
def statusAt (prev : Option Char) (l : List Char) : Option String :=
  statusAlternatives.find? (fun alt =>
    ciPrefix alt.data l &&
    (match prev with | none => true | some p => !isWordChar p) &&
    (match l.drop alt.length with | [] => true | c :: _ => !isWordChar c))

/-- Leftmost case-insensitive search for a status abbreviation with word
boundaries, returning it uppercased (the alternatives are already upper
case). -/
def statusFind (l : List Char) : Option String :=
  match l with
  | [] => none
  | c :: rest =>
    match statusAt none l with
    | some s => some s
    | none => statusFindAux c rest
where
  statusFindAux (prev : Char) : List Char → Option String
    | [] => none
    | c :: rest =>
      match statusAt (some prev) (c :: rest) with
      | some s => some s
      | none => statusFindAux c rest

/-- A bare 2-4 capital-letter team code (the standalone-team regex). -/
def bareTeamCode (line : String) : Bool :=
  2 ≤ line.length && line.length ≤ 4 && line.data.all isUpperAZ

/-- Result of parsePlayerCell. -/
structure PlayerInfo where
  playerName : String
  team : Option String
  status : Option String
deriving DecidableEq, Repr

/-- The classification loop of parsePlayerCell over the lines after the
first: a team line (overwriting any earlier team), else a status tag, else
a standalone team code; anything else is ignored. -/
def classifyPlayerLines (team status : Option String) : List String → Option String × Option String
  | [] => (team, status)
  | line :: rest =>
    match teamLineMatch line with
    | some t => classifyPlayerLines (some t) status rest
    | none =>
      match statusFind line.data with
      | some s => classifyPlayerLines team (some s) rest
      | none =>
        if bareTeamCode line then classifyPlayerLines (some line) status rest
        else classifyPlayerLines team status rest

/-- Embedding of parsePlayerCell: line 1 is the player name (or the whole
trimmed text when no line survives), the remaining lines are classified as
team or status, and the name is cleaned by collapsing whitespace runs. -/
def parsePlayerCell (text : String) : PlayerInfo :=
  let lines := playerCellLines text
  let base :=
    match lines with
    | [] => trimJs text
    | l :: _ => l
  let ts := classifyPlayerLines none none lines.tail
  { playerName := trimJs (String.mk (collapseWs base.data))
    team := ts.1
    status := ts.2 }

example : parsePlayerCell ("Jane Doe\nBOS | PG\nOUT") =
    { playerName := "Jane Doe", team := some "BOS", status := some "OUT" } := by decide
example : parsePlayerCell ("John Smith\nLAL | SF") =
    { playerName := "John Smith", team := some "LAL", status := none } := by decide

/-! Header classification (HEADER_MAP and HIT_RATE_PATTERNS) and row
normalisation (normalizeRow). -/

/-- The structural fields a header can classify to. -/
inductive HeaderField where
  | playerName | team | opponent | line | oddsOver | oddsUnder
  | streak | projection | diff | dvp | status
deriving DecidableEq, Repr

/-- Prefix test on strings via their character lists. -/
def strStartsWith (s p : String) : Bool :=
  p.data.isPrefixOf s.data

/-- The pattern odds?, then optional whitespace, then the given word,
anchored on both sides (used for the over/under odds headers). -/
def oddsWordGap (lh : String) (w : String) : Bool :=
  match lh.data with
  | 'o' :: 'd' :: 'd' :: rest =>
    let rest1 := match rest with | 's' :: r => r | _ => rest
    (rest1.dropWhile jsWhitespace) = w.data
  | _ => false

/-- The pattern a, optional whitespace, b, anchored on both sides (used for
the dvp-rank header). -/
def wordGapMatch (lh : String) (a b : String) : Bool :=
  a.data.isPrefixOf lh.data &&
    ((lh.data.drop a.data.length).dropWhile jsWhitespace) = b.data

/-- Embedding of the HEADER_MAP lookup: the first pattern (in listed
priority) matching the case-folded header decides the field. -/
def headerField (h : String) : Option HeaderField :=
  let lh := toLowerStr h
  if lh = "player" ∨ lh = "name" then some .playerName
  else if lh = "team" then some .team
  else if strStartsWith lh ("opp") ∨ lh = "vs" ∨ lh = "vs." then some .opponent
  else if lh = "l" ∨ lh = "line" ∨ lh = "o/u" then some .line
  else if lh = "over" ∨ lh = "o" ∨ oddsWordGap lh ("over") then some .oddsOver
  else if lh = "under" ∨ lh = "u" ∨ oddsWordGap lh ("under") then some .oddsUnder
  else if lh = "stk" ∨ lh = "streak" then some .streak
  else if lh = "proj" ∨ lh = "projection" then some .projection
  else if lh = "diff" ∨ lh = "edge" then some .diff
  else if lh = "dvp" ∨ wordGapMatch lh ("dvp") ("rank") then some .dvp
  else if lh = "status" ∨ strStartsWith lh ("inj") then some .status
  else none

/-- Substring containment on char lists. -/
def containsSub (sub : List Char) : List Char → Bool
  | [] => sub.isEmpty
  | c :: rest => sub.isPrefixOf (c :: rest) || containsSub sub rest

/-- Containment of the pattern a.?b — a, at most one arbitrary non-newline
character, then b — anywhere in the list. -/
def containsGapDigits (a b : List Char) : List Char → Bool
  | [] => a.isPrefixOf [] && b.isPrefixOf []
  | c :: rest =>
    (a.isPrefixOf (c :: rest) &&
      (b.isPrefixOf ((c :: rest).drop a.length) ||
        (match (c :: rest).drop a.length with
         | m :: r => m ≠ '\n' && b.isPrefixOf r
         | [] => false))) ||
    containsGapDigits a b rest

/-- Containment of the pattern last\s*digits anywhere in the list. -/
def containsLastGap (digits : List Char) : List Char → Bool
  | [] => false
  | c :: rest =>
    (("last").data.isPrefixOf (c :: rest) &&
      digits.isPrefixOf (((c :: rest).drop 4).dropWhile jsWhitespace)) ||
    containsLastGap digits rest

/-- Embedding of the HIT_RATE_PATTERNS lookup, first match (in listed
order) returning the canonical period key. -/
def hitRateKey (h : String) : Option String :=
  let lh := (toLowerStr h).data
  if containsGapDigits ("25").data ("26").data lh then some ("25/26")
  else if containsGapDigits ("24").data ("25").data lh then some ("24/25")
  else if containsSub ("h2h").data lh then some ("H2H")
  else if lh = ("l5").data ∨ containsLastGap ("5").data lh then some ("L5")
  else if lh = ("l10").data ∨ containsLastGap ("10").data lh then some ("L10")
  else if lh = ("l15").data ∨ containsLastGap ("15").data lh then some ("L15")
  else if lh = ("l20").data ∨ containsLastGap ("20").data lh then some ("L20")
  else if lh = ("l30").data ∨ containsLastGap ("30").data lh then some ("L30")
  else none

/-- One scraped table row in the fixed schema (PropRow in the helpers). -/
structure PropRow where
  propKey : String
  propLabel : String
  dateISO : String
  playerName : String
  team : Option String
  status : Option String
  line : Option ℚ
  oddsOver : Option ℚ
  oddsUnder : Option ℚ
  projection : Option ℚ
  diff : Option ℚ
  dvp : Option String
  hitRates : Option (List (String × Option ℚ))
  raw : List (String × String)
  rowSignature : String
deriving DecidableEq, Repr

/-- Category context handed to the normaliser (RowContext). -/
structure RowContext where
  propKey : String
  propLabel : String
  dateISO : String
deriving DecidableEq, Repr

/-- JS object property assignment on an insertion-ordered record: an
existing key keeps its position and gets the new value, a new key is
appended. -/
def jsRecordSet {α : Type} (l : List (String × α)) (k : String) (v : α) : List (String × α) :=
  if l.any (fun p => p.1 = k) then l.map (fun p => if p.1 = k then (k, v) else p)
  else l ++ [(k, v)]

/-- The mapped-field record built by the header loop of normalizeRow. -/
structure MappedFields where
  playerName : Option String := none
  team : Option String := none
  opponent : Option String := none
  line : Option String := none
  oddsOver : Option String := none
  oddsUnder : Option String := none
  streak : Option String := none
  projection : Option String := none
  diff : Option String := none
  dvp : Option String := none
  status : Option String := none
deriving DecidableEq, Repr

/-- Record assignment mapped[field] = v. -/
def setMapped (m : MappedFields) : HeaderField → String → MappedFields
  | .playerName, v => { m with playerName := some v }
  | .team, v => { m with team := some v }
  | .opponent, v => { m with opponent := some v }
  | .line, v => { m with line := some v }
  | .oddsOver, v => { m with oddsOver := some v }
  | .oddsUnder, v => { m with oddsUnder := some v }
  | .streak, v => { m with streak := some v }
  | .projection, v => { m with projection := some v }
  | .diff, v => { m with diff := some v }
  | .dvp, v => { m with dvp := some v }
  | .status, v => { m with status := some v }

/-- JS truthiness of an optional string. -/
def strTruthy : Option String → Bool
  | some s => !(s == "")
  | none => false

/-- The raw header-to-cell map of normalizeRow (headers beyond the shorter
of the two arrays are ignored, empty headers are skipped). -/
def buildRaw (headers cells : List String) : List (String × String) :=
  (headers.zip cells).foldl
    (fun acc p => if p.1 = "" then acc else jsRecordSet acc p.1 p.2) []

/-- One step of the field-mapping loop of normalizeRow: a header/cell pair
either sets a structural field, or feeds the hit-rate map, or is
skipped. -/
def mapFieldsStep (acc : MappedFields × List (String × Option ℚ)) (p : String × String) :
    MappedFields × List (String × Option ℚ) :=
  match headerField p.1 with
  | some f => (setMapped acc.1 f p.2, acc.2)
  | none =>
    match hitRateKey p.1 with
    | some k => (acc.1, jsRecordSet acc.2 k (parseNumber p.2))
    | none => acc

/-- The field-mapping loop of normalizeRow. -/
def mapFields (headers cells : List String) : MappedFields × List (String × Option ℚ) :=
  (headers.zip cells).foldl mapFieldsStep ({}, [])

/-- The fallback predicate for the player cell: non-empty after trimming
and not starting with a digit. -/
def fallbackCell (c : String) : Bool :=
  match (trimJs c).data with
  | [] => false
  | ch :: _ => !ch.isDigit

/-- The JS a || b on optional strings (empty string is falsy). -/
def jsOrOpt (a b : Option String) : Option String :=
  match a with
  | some s => if s = "" then b else some s
  | none => b

/-- The JS a || null on an optional string. -/
def jsOrNull (a : Option String) : Option String :=
  match a with
  | some s => if s = "" then none else some s
  | none => none

/-- Value of an optional string under the JS nullish coalescing with the
empty string. -/
def orEmpty : Option String → String
  | some s => s
  | none => ""

/-- Join a list of strings with a separator (Array.prototype.join). -/
def joinSep (sep : String) : List String → String
  | [] => ""
  | [x] => x
  | x :: rest => x ++ sep ++ joinSep sep rest

/-- The signature parts before the raw fallback: category key, then each
of playerName, team, line, oddsOver, oddsUnder when present (truthy for
the strings, non-null for the numbers). -/
def sigBaseParts (propKey : String) (row : PropRow) : List String :=
  [propKey]
    ++ (if row.playerName = "" then [] else [row.playerName])
    ++ (match row.team with
        | some t => if t = "" then [] else [t]
        | none => [])
    ++ (match row.line with | some v => [ratToJsString v] | none => [])
    ++ (match row.oddsOver with | some v => [ratToJsString v] | none => [])
    ++ (match row.oddsUnder with | some v => [ratToJsString v] | none => [])

/-- Embedding of makeRowSignature: the base parts, extended by the first
five raw values when at most one field beyond the key was available, joined
with a pipe. -/
def makeRowSignature (propKey : String) (row : PropRow) : String :=
  let parts := sigBaseParts propKey row
  let parts2 :=
    if parts.length ≤ 2 then parts ++ (row.raw.map Prod.snd).take 5 else parts
  joinSep ("|") parts2

/-- The row built by normalizeRow once a non-empty player cell p has been
determined: parse the composite player cell and the numeric fields, then
attach the signature. -/
def normalizeRowFrom (headers cells : List String) (context : RowContext)
    (p : String) : PropRow :=
  let raw := buildRaw headers cells
  let m := (mapFields headers cells).1
  let hitRates := (mapFields headers cells).2
  let playerInfo := parsePlayerCell p
  let row : PropRow :=
    { propKey := context.propKey
      propLabel := context.propLabel
      dateISO := context.dateISO
      playerName := playerInfo.playerName
      team := jsOrOpt m.team playerInfo.team
      status := jsOrOpt m.status playerInfo.status
      line := parseLine (orEmpty m.line)
      oddsOver := parseOdds (orEmpty m.oddsOver)
      oddsUnder := parseOdds (orEmpty m.oddsUnder)
      projection := parseNumber (orEmpty m.projection)
      diff := parseNumber (orEmpty m.diff)
      dvp := jsOrNull m.dvp
      hitRates := if hitRates.isEmpty then none else some hitRates
      raw := raw
      rowSignature := "" }
  { row with rowSignature := makeRowSignature context.propKey row }

/-- Embedding of normalizeRow: build the raw map, classify each header,
fall back to the first usable cell for the player when no header mapped to
it, then build the row. -/
def normalizeRow (headers cells : List String) (context : RowContext) : Option PropRow :=
  if cells.isEmpty then none
  else
    let m := (mapFields headers cells).1
    let p1 :=
      if strTruthy m.playerName then m.playerName
      else
        match cells.find? fallbackCell with
        | some c => some (trimJs c)
        | none => m.playerName
    match p1 with
    | none => none
    | some p =>
      if p = "" then none
      else some (normalizeRowFrom headers cells context p)

example :
    (normalizeRow ["Player", "Line", "Over", "Under"]
      ["Jane Doe\nBOS | PG\nOUT", "O 25.5", "−110", "+120"]
      { propKey := "pts", propLabel := "Pts", dateISO := "2026-01-01" }).map
      (fun r => (r.playerName, r.team, r.status, r.line, r.rowSignature)) =
    some ("Jane Doe", some "BOS", some "OUT", some (Rat.divInt 255 10),
      "pts|Jane Doe|BOS|25.5|-110|120") := by decide

example :
    normalizeRow ["Line"] ["123"]
      { propKey := "pts", propLabel := "Pts", dateISO := "2026-01-01" } = none := by decide

/-! Row Collector (collectAllRowsByScrolling): fast bulk-read path and slow
scroll-and-collect path. The page reads are explicit inputs — the one bulk
read as a BatchRead, and the per-iteration visible rows as a function of
the iteration index. -/

/-- Maximum number of scroll iterations (MAX_SCROLL_ATTEMPTS). -/
def MAX_SCROLL_ATTEMPTS : Nat := 120

/-- Consecutive no-new-row scrolls before the slow path stops
(STABLE_SCROLL_THRESHOLD). -/
def STABLE_SCROLL_THRESHOLD : Nat := 3

/-- Result of the single bulk in-page read of the fast path. -/
structure BatchRead where
  headers : List String
  rows : List (List String)
deriving DecidableEq, Repr

/-- Normalize a batch of cell-text rows, keeping only rows whose signature
was not seen yet (the shared normalize-and-dedupe loop of both collector
paths); returns the accepted rows in order and the extended seen set. -/
def mergeRows (headers : List String) (context : RowContext) :
    List (List String) → List String → List PropRow × List String
  | [], seen => ([], seen)
  | cells :: rest, seen =>
    match normalizeRow headers cells context with
    | none => mergeRows headers context rest seen
    | some r =>
      if r.rowSignature ∈ seen then mergeRows headers context rest seen
      else
        let next := mergeRows headers context rest (r.rowSignature :: seen)
        (r :: next.1, next.2)

/-- The slow scroll-and-collect loop: while attempts remain and the
stability counter is below the threshold, read the visible rows, merge the
unseen ones, bump or reset the counter, scroll, repeat. The fuel starts at
MAX_SCROLL_ATTEMPTS so the fuel pattern is exactly the loop bound
totalAttempts < MAX_SCROLL_ATTEMPTS. -/
def slowLoop (visible : Nat → List (List String)) (headers : List String)
    (context : RowContext) :
    Nat → Nat → Nat → List String → List PropRow → List PropRow × Nat × Nat
  | 0, t, st, _seen, acc => (acc, t, st)
  | fuel + 1, t, st, seen, acc =>
    if st < STABLE_SCROLL_THRESHOLD then
      let merged := mergeRows headers context (visible t) seen
      let st1 := if merged.1.length = 0 then st + 1 else 0
      slowLoop visible headers context fuel (t + 1) st1 merged.2 (acc ++ merged.1)
    else (acc, t, st)

/-- Outcome of one collection pass: the collected rows, how many scroll
iterations ran (0 on the fast path), the final stability counter, and
whether the closing scroll-to-top of the slow path executed. -/
structure CollectResult where
  rows : List PropRow
  scrollAttempts : Nat
  finalStable : Nat
  scrolledToTop : Bool
deriving DecidableEq, Repr

/-- The fast path's normalized, deduplicated result: the bulk-read rows
under the batch headers (falling back to the passed header texts when the
batch read saw none). -/
def collectFastRows (batch : BatchRead) (headerTexts : List String)
    (context : RowContext) : List PropRow :=
  let effectiveHeaders := if batch.headers.isEmpty then headerTexts else batch.headers
  (mergeRows effectiveHeaders context batch.rows []).1

/-- Embedding of the control flow of collectAllRowsByScrolling around the
fast read and the scroll loop. -/
def collectAllRowsByScrolling (batch : BatchRead) (headerTexts : List String)
    (propKey propLabel dateISO : String)
    (visible : Nat → List (List String)) : CollectResult :=
  let context : RowContext := { propKey := propKey, propLabel := propLabel, dateISO := dateISO }
  let fast := collectFastRows batch headerTexts context
  if !batch.rows.isEmpty ∧ !fast.isEmpty then
    { rows := fast, scrollAttempts := 0, finalStable := 0, scrolledToTop := false }
  else
    let slow := slowLoop visible headerTexts context MAX_SCROLL_ATTEMPTS 0 0 [] []
    { rows := slow.1, scrollAttempts := slow.2.1, finalStable := slow.2.2,
      scrolledToTop := true }

example :
    (collectAllRowsByScrolling { headers := ["Line"], rows := [["123"]] } ["Line"]
      "pts" "Pts" "2026-01-01" (fun _ => [])).scrollAttempts = 3 := by decide

example :
    ((collectAllRowsByScrolling { headers := ["Player"], rows := [["Jane"], ["Jane"], ["Bob"]] }
      ["Player"] "pts" "Pts" "2026-01-01" (fun _ => [])).rows.map
        (fun r => r.playerName)) = ["Jane", "Bob"] := by decide

/-! Option Discovery (discoverPropOptions) and the Scrape Orchestrator
(scrapeNbaPropsForDate). Discovery's DOM strategies are abstracted as an
ordered list of per-strategy outcomes; a category attempt's outcome
(selection, refresh wait, header read, collection) is abstracted as a
function from the attempt number to either an error message or the
collected rows. -/

/-- One selectable prop option (PropOption). -/
structure PropOption where
  label : String
  key : String
deriving DecidableEq, Repr

/-- Per-category retry bound (SCRAPE_RETRY_COUNT). -/
def SCRAPE_RETRY_COUNT : Nat := 3

/-- The strategy cascade and key dedup of discoverPropOptions: the first
strategy yielding a non-empty option list wins, otherwise the empty list is
returned as a normal value (never a thrown failure); the winner is
deduplicated by key keeping first occurrences. -/
def dedupByKey (seen : List String) : List PropOption → List PropOption
  | [] => []
  | o :: rest =>
    if o.key ∈ seen then dedupByKey seen rest
    else o :: dedupByKey (o.key :: seen) rest

/-- Embedding of discoverPropOptions over the ordered strategy outcomes. -/
def discoverPropOptions (strategyResults : List (List PropOption)) : List PropOption :=
  dedupByKey [] ((strategyResults.find? (fun l => !l.isEmpty)).getD [])

/-- One category's outcome in a session (PropScrapeResult, minus the wall
clock duration). -/
structure PropScrapeResult where
  propKey : String
  propLabel : String
  rows : List PropRow
  rowCount : Nat
deriving DecidableEq, Repr

/-- One recorded error entry of a session. -/
structure ScrapeError where
  propKey : String
  propLabel : String
  error : String
deriving DecidableEq, Repr

/-- The session summary counters. -/
structure ScrapeSummary where
  propsAttempted : Nat
  propsSucceeded : Nat
  rowsTotal : Nat
deriving DecidableEq, Repr

/-- A completed session (ScrapeSession, minus timestamps and the artifact
directory, which are wall-clock and filesystem state). -/
structure ScrapeSession where
  results : List PropScrapeResult
  errors : List ScrapeError
  summary : ScrapeSummary
deriving DecidableEq, Repr

/-- The orchestrator options the control flow branches on. -/
structure ScrapeOptions where
  discover : Bool := false
  limitProps : Option Nat := none
  onlyPropLabel : Option String := none

/-- An abstract category-attempt behaviour: attempt number (starting at 1)
to either a failure message or the rows collected on that attempt. -/
def AttemptFun : Type := Nat → Except String (List PropRow)

/-- The per-category retry loop: run attempts k, k+1, ... while tries
remain, stopping at the first success. -/
def runAttempts (f : AttemptFun) : Nat → Nat → Option (List PropRow)
  | 0, _ => none
  | n + 1, k =>
    match f k with
    | .ok rows => some rows
    | .error _ => runAttempts f n (k + 1)

/-- The scrape loop over the categories to scrape: a category that succeeds
within the retry bound appends a result and its row count, one that
exhausts every attempt appends exactly one error entry, and the loop always
advances to the next category. Returns (results, errors, totalRows). -/
def scrapeLoop : List (PropOption × AttemptFun) →
    List PropScrapeResult × List ScrapeError × Nat
  | [] => ([], [], 0)
  | (option, f) :: rest =>
    let tail := scrapeLoop rest
    match runAttempts f SCRAPE_RETRY_COUNT 1 with
    | some rows =>
      ({ propKey := option.key, propLabel := option.label,
          rows := rows, rowCount := rows.length } :: tail.1,
        tail.2.1, rows.length + tail.2.2)
    | none =>
      (tail.1,
        { propKey := option.key, propLabel := option.label,
          error := "Failed after 3 attempts" } :: tail.2.1,
        tail.2.2)

/-- Embedding of scrapeNbaPropsForDate after navigation: branch on
discover-only mode, empty discovery, the label filter and the count limit,
then run the scrape loop and finalize the summary. -/
def scrapeNbaPropsForDate (discovered : List PropOption)
    (behavior : PropOption → AttemptFun) (options : ScrapeOptions) : ScrapeSession :=
  if options.discover then
    { results := [], errors := [],
      summary := { propsAttempted := 0, propsSucceeded := 0, rowsTotal := 0 } }
  else if discovered.isEmpty then
    { results := [],
      errors := [{ propKey := "discovery", propLabel := "discovery",
                   error := "No prop options found" }],
      summary := { propsAttempted := 0, propsSucceeded := 0, rowsTotal := 0 } }
  else
    let filtered :=
      match options.onlyPropLabel with
      | some lbl => discovered.filter (fun (o : PropOption) => toLowerStr o.label == toLowerStr lbl)
      | none => discovered
    if options.onlyPropLabel.isSome ∧ filtered.isEmpty then
      { results := [],
        errors := [{ propKey := "filter", propLabel := orEmpty options.onlyPropLabel,
                     error := "Prop not found" }],
        summary := { propsAttempted := 0, propsSucceeded := 0, rowsTotal := 0 } }
    else
      let toScrape :=
        match options.limitProps with
        | some n => if 0 < n then filtered.take n else filtered
        | none => filtered
      let loop := scrapeLoop (toScrape.map (fun o => (o, behavior o)))
      { results := loop.1, errors := loop.2.1,
        summary := { propsAttempted := toScrape.length,
                     propsSucceeded := loop.1.length,
                     rowsTotal := loop.2.2 } }

/-! Persistence Layer (upsertBatch / persistScrapeSession): the prop_rows
table is an explicit list of persisted records, the ON CONFLICT clause of
the batched INSERT is an update keyed on the natural-key unique index
uq_prop_rows_natural_key, and the RETURNING (xmax = 0) flag is the
inserted/updated Bool of each single upsert. -/

/-- One prop_rows record (the columns of migration.sql, minus the
generated id and created_at). -/
structure PersistedRow where
  runId : String
  sport : String
  dateIso : String
  propKey : String
  propLabel : String
  playerName : String
  team : Option String
  status : Option String
  line : Option ℚ
  oddsOver : Option ℚ
  oddsUnder : Option ℚ
  projection : Option ℚ
  diff : Option ℚ
  dvp : Option String
  hitRates : Option (List (String × Option ℚ))
  raw : List (String × String)
  rowSignature : String
deriving DecidableEq, Repr

/-- The natural key of uq_prop_rows_natural_key: (sport, date_iso,
prop_key, player_name, COALESCE(line, -999), COALESCE(odds_over, -999),
COALESCE(odds_under, -999)). -/
def naturalKey (r : PersistedRow) : String × String × String × String × ℚ × ℚ × ℚ :=
  (r.sport, r.dateIso, r.propKey, r.playerName,
    r.line.getD (Rat.divInt (-999) 1), r.oddsOver.getD (Rat.divInt (-999) 1),
    r.oddsUnder.getD (Rat.divInt (-999) 1))

/-- The 17 insert parameters built per row by upsertBatch. -/
def rowToPersisted (runId sport : String) (row : PropRow) : PersistedRow :=
  { runId := runId, sport := sport, dateIso := row.dateISO, propKey := row.propKey,
    propLabel := row.propLabel, playerName := row.playerName, team := row.team,
    status := row.status, line := row.line, oddsOver := row.oddsOver,
    oddsUnder := row.oddsUnder, projection := row.projection, diff := row.diff,
    dvp := row.dvp, hitRates := row.hitRates, raw := row.raw,
    rowSignature := row.rowSignature }

/-- The DO UPDATE SET clause: every mutable column is overwritten from the
excluded row, the natural-key columns stay those of the stored row. -/
def updateMutable (old excluded : PersistedRow) : PersistedRow :=
  { old with
    runId := excluded.runId
    propLabel := excluded.propLabel
    team := excluded.team
    status := excluded.status
    projection := excluded.projection
    diff := excluded.diff
    dvp := excluded.dvp
    hitRates := excluded.hitRates
    raw := excluded.raw
    rowSignature := excluded.rowSignature }

/-- One row of the batched upsert: update in place on a natural-key
conflict (reported as not inserted), append otherwise (reported as
inserted). -/
def upsertOne (store : List PersistedRow) (row : PersistedRow) : List PersistedRow × Bool :=
  if store.any (fun r => naturalKey r == naturalKey row) then
    (store.map (fun r => if naturalKey r == naturalKey row then updateMutable r row else r),
      false)
  else (store ++ [row], true)

/-- The batched upsert over a chunk of persisted rows, returning the new
store and the (inserted, updated) counts derived from the per-row flag. -/
def upsertBatch (store : List PersistedRow) : List PersistedRow → List PersistedRow × Nat × Nat
  | [] => (store, 0, 0)
  | row :: rest =>
    let one := upsertOne store row
    let next := upsertBatch one.1 rest
    (next.1, (if one.2 then 1 else 0) + next.2.1, (if one.2 then 0 else 1) + next.2.2)

/-- All rows of a session's results in order (the row-collection loop of
persistScrapeSession). -/
def sessionRows (session : ScrapeSession) : List PropRow :=
  session.results.foldr (fun r acc => r.rows ++ acc) []

/-- Embedding of persistScrapeSession's row phase: upsert every collected
row of the session under the freshly inserted run id. -/
def persistSessionRows (runId sport : String) (store : List PersistedRow)
    (session : ScrapeSession) : List PersistedRow × Nat × Nat :=
  upsertBatch store ((sessionRows session).map (rowToPersisted runId sport))

/-! Query surface (DbQuery.queryPropRows): the prop_rows table is a list of
records, the WHERE clause a filter, ORDER BY a comparator sort and LIMIT a
take. -/

/-- One row as returned by the query surface (PropRowRecord). -/
structure PropRowRecord where
  id : String
  dateIso : String
  propKey : String
  propLabel : String
  playerName : String
  team : Option String
  status : Option String
  line : Option ℚ
  oddsOver : Option ℚ
  oddsUnder : Option ℚ
  projection : Option ℚ
  diff : Option ℚ
  dvp : Option String
  hitRates : Option (List (String × Option ℚ))
deriving DecidableEq, Repr

/-- The optional filters of queryPropRows. -/
structure QueryOpts where
  dateIso : String
  propKey : Option String := none
  playerSearch : Option String := none
  orderBy : Option String := none
  limit : Option Nat := none

/-- The WHERE conditions: date match, then the prop-key and player-search
filters when their option is truthy (ILIKE is case-insensitive
containment). -/
def rowMatches (opts : QueryOpts) (r : PropRowRecord) : Bool :=
  r.dateIso == opts.dateIso &&
  (if strTruthy opts.propKey then r.propKey == orEmpty opts.propKey else true) &&
  (if strTruthy opts.playerSearch then
    containsSub (toLowerStr (orEmpty opts.playerSearch)).data (toLowerStr r.playerName).data
  else true)

/-- The allowed ORDER BY clauses. -/
inductive OrderClause where
  | playerAsc | lineDesc | diffDesc | projectionDesc | dvpAsc
deriving DecidableEq, Repr

/-- The allowedOrder lookup with its double fallback: a missing sort key
defaults to player, and a key outside the allow-list falls back to
player_name ASC. -/
def orderClauseFor (orderBy : Option String) : OrderClause :=
  let key := match orderBy with | none => "player" | some s => s
  if key = "player" then .playerAsc
  else if key = "line" then .lineDesc
  else if key = "diff" then .diffDesc
  else if key = "projection" then .projectionDesc
  else if key = "dvp" then .dvpAsc
  else .playerAsc

/-- Descending comparator on an optional numeric column with NULLS LAST. -/
def optDescNullsLast (a b : Option ℚ) : Bool :=
  match a, b with
  | none, none => true
  | none, some _ => false
  | some _, none => true
  | some x, some y => decide (y ≤ x)

/-- Ascending comparator on an optional text column with NULLS LAST. -/
def optStrAscNullsLast (a b : Option String) : Bool :=
  match a, b with
  | none, none => true
  | none, some _ => false
  | some _, none => true
  | some x, some y => decide (x ≤ y)

/-- The row comparator of each ORDER BY clause. -/
def rowLe (c : OrderClause) (r1 r2 : PropRowRecord) : Bool :=
  match c with
  | .playerAsc => decide (r1.playerName ≤ r2.playerName)
  | .lineDesc => optDescNullsLast r1.line r2.line
  | .diffDesc => optDescNullsLast r1.diff r2.diff
  | .projectionDesc => optDescNullsLast r1.projection r2.projection
  | .dvpAsc => optStrAscNullsLast r1.dvp r2.dvp

/-- Insert into a sorted list under a Boolean comparator. -/
def insertSorted {α : Type} (le : α → α → Bool) (x : α) : List α → List α
  | [] => [x]
  | y :: rest => if le x y then x :: y :: rest else y :: insertSorted le x rest

/-- Sort under a Boolean comparator (the ORDER BY evaluation). -/
def sortByBool {α : Type} (le : α → α → Bool) (l : List α) : List α :=
  l.foldr (insertSorted le) []

/-- Embedding of DbQuery.queryPropRows: filter, order, and cap the row
count at the requested limit bounded by 2000, defaulting to 500. -/
def queryPropRows (table : List PropRowRecord) (opts : QueryOpts) : List PropRowRecord :=
  let filtered := table.filter (rowMatches opts)
  let sorted := sortByBool (rowLe (orderClauseFor opts.orderBy)) filtered
  sorted.take (min (opts.limit.getD 500) 2000)

/-! Theorems for the frozen claims. -/

/-- C5: the numeric parsers map "−110" (Unicode minus) to -110, "+120" to
120, "" to null, "O 25.5" to 25.5, "12,345" to 12345 and "47%" to 47, and
every input that is empty or reduces to a bare sign after cleaning parses
to null (never zero) in each parser. -/
theorem C5_numeric_parsing :
    parseOdds ("−110") = some (-110 : ℚ) ∧
    parseOdds ("+120") = some (120 : ℚ) ∧
    parseOdds ("") = none ∧
    parseLine ("O 25.5") = some (25.5 : ℚ) ∧
    parseNumber ("12,345") = some (12345 : ℚ) ∧
    parseNumber ("47%") = some (47 : ℚ) ∧
    (∀ s : String, cleanOdds s = "" ∨ cleanOdds s = "-" ∨ cleanOdds s = "+" →
      parseOdds s = none) ∧
    (∀ s : String, cleanLine s = "" ∨ cleanLine s = "-" → parseLine s = none) ∧
    (∀ s : String, cleanNumber s = "" ∨ cleanNumber s = "-" → parseNumber s = none) := by
  refine ⟨?_, ?_, rfl, ?_, ?_, ?_, ?_, ?_, ?_⟩
  · rw [show parseOdds ("−110") = some (-(Rat.divInt 110 1)) from rfl]
    norm_num [Rat.divInt_eq_div]
  · rw [show parseOdds ("+120") = some (Rat.divInt 120 1) from rfl]
    norm_num [Rat.divInt_eq_div]
  · rw [show parseLine ("O 25.5") = some (Rat.divInt 255 10) from rfl]
    norm_num [Rat.divInt_eq_div]
  · rw [show parseNumber ("12,345") = some (Rat.divInt 12345 1) from rfl]
    norm_num [Rat.divInt_eq_div]
  · rw [show parseNumber ("47%") = some (Rat.divInt 47 1) from rfl]
    norm_num [Rat.divInt_eq_div]
  · intro s h
    by_cases hs : s = ""
    · simp [parseOdds, hs]
    · rcases h with h | h | h <;> simp [parseOdds, hs, h]
  · intro s h
    by_cases hs : s = ""
    · simp [parseLine, hs]
    · rcases h with h | h
      · simp [parseLine, hs, h]
      · simp only [parseLine, hs, if_false, h]
        decide
  · intro s h
    by_cases hs : s = ""
    · simp [parseNumber, hs]
    · rcases h with h | h <;> simp [parseNumber, hs, h]

/-- Witness for C5 at a concrete sign-only input. -/
theorem C5_numeric_parsing_witness :
    (cleanLine ("U -") = "" ∨ cleanLine ("U -") = "-") ∧ parseLine ("U -") = none :=
  ⟨Or.inr rfl, C5_numeric_parsing.2.2.2.2.2.2.2.1 ("U -") (Or.inr rfl)⟩

/-- C6: the composite player-cell sub-parser takes line 1 as the player
name, classifies the later lines as team or status and ignores the rest;
"Jane Doe\nBOS | PG\nOUT" gives (Jane Doe, BOS, OUT) and
"John Smith\nLAL | SF" gives (John Smith, LAL, no status). -/
theorem C6_player_cell :
    parsePlayerCell ("Jane Doe\nBOS | PG\nOUT") =
      { playerName := "Jane Doe", team := some "BOS", status := some "OUT" } ∧
    parsePlayerCell ("John Smith\nLAL | SF") =
      { playerName := "John Smith", team := some "LAL", status := none } ∧
    (∀ text l rest, playerCellLines text = l :: rest →
      (parsePlayerCell text).playerName = trimJs (String.mk (collapseWs l.data))) ∧
    (∀ text l rest, playerCellLines text = l :: rest →
      ((parsePlayerCell text).team, (parsePlayerCell text).status) =
        classifyPlayerLines none none rest) := by
  refine ⟨by decide, by decide, ?_, ?_⟩
  · intro text l rest h
    simp [parsePlayerCell, h]
  · intro text l rest h
    simp [parsePlayerCell, h]

/-- Witness for C6 instantiating the line-1 conjunct. -/
theorem C6_player_cell_witness :
    playerCellLines ("Ty Jerome\nMEM | SG\nGTD") = "Ty Jerome" :: ["MEM | SG", "GTD"] ∧
    (parsePlayerCell ("Ty Jerome\nMEM | SG\nGTD")).playerName =
      trimJs (String.mk (collapseWs ("Ty Jerome").data)) :=
  ⟨by decide, C6_player_cell.2.2.1 ("Ty Jerome\nMEM | SG\nGTD") "Ty Jerome"
    ["MEM | SG", "GTD"] (by decide)⟩

/-- C4 counterexample: with no discovered categories the orchestrator does
record the failure inside the session's error list (a sentinel entry keyed
"discovery"), contradicting the claim that it is not reported as one of
the errors in that list. -/
theorem C4_counterexample :
    (scrapeNbaPropsForDate [] (fun _ _ => Except.error "SelectionNotFound") {}).errors =
      [{ propKey := "discovery", propLabel := "discovery",
         error := "No prop options found" }] := by decide

/-- C4 (amended): when every discovery strategy comes back empty, discovery
returns the empty option list as a plain value (no thrown failure), and the
orchestrator aborts before attempting any category — no results, zero
summary counters — while recording the run-level failure as a single
sentinel "discovery" entry in the session's error list. -/
theorem C4_empty_discovery :
    (∀ strategyResults : List (List PropOption),
      (∀ l ∈ strategyResults, l = []) → discoverPropOptions strategyResults = []) ∧
    (∀ behavior : PropOption → AttemptFun,
      scrapeNbaPropsForDate [] behavior {} =
        { results := [],
          errors := [{ propKey := "discovery", propLabel := "discovery",
                       error := "No prop options found" }],
          summary := { propsAttempted := 0, propsSucceeded := 0, rowsTotal := 0 } }) := by
  constructor
  · intro sr h
    have hf : sr.find? (fun l => !l.isEmpty) = none := by
      rw [List.find?_eq_none]
      intro x hx
      simp [h x hx]
    simp [discoverPropOptions, hf, dedupByKey]
  · intro behavior
    rfl

/-- Witness for C4 on two concrete empty strategy outcomes. -/
theorem C4_empty_discovery_witness :
    (∀ l ∈ [([] : List PropOption), []], l = []) ∧
    discoverPropOptions [[], []] = [] :=
  ⟨by decide, C4_empty_discovery.1 [[], []] (by decide)⟩

/-- The retry loop fails exactly when every attempt in its window fails. -/
theorem runAttempts_none_iff (f : AttemptFun) :
    ∀ (n k : Nat), runAttempts f n k = none ↔
      ∀ j, k ≤ j → j < k + n → ∃ e, f j = Except.error e := by
  intro n
  induction n with
  | zero =>
    intro k
    simp only [runAttempts]
    constructor
    · intro _ j h1 h2
      omega
    · intro _
      trivial
  | succ n ih =>
    intro k
    simp only [runAttempts]
    cases hf : f k with
    | ok rows =>
      constructor
      · intro h
        exact absurd h (by simp)
      · intro h
        obtain ⟨e, he⟩ := h k (le_refl k) (by omega)
        rw [hf] at he
        exact absurd he (by simp)
    | error e =>
      rw [ih (k + 1)]
      constructor
      · intro h j h1 h2
        by_cases hj : j = k
        · exact ⟨e, hj ▸ hf⟩
        · exact h j (by omega) (by omega)
      · intro h j h1 h2
        exact h j (by omega) (by omega)

/-- The scrape loop's results are exactly the in-order successes, its
errors exactly one entry per exhausted category, and its row total the sum
over the successes. -/
theorem scrapeLoop_spec (cats : List (PropOption × AttemptFun)) :
    (scrapeLoop cats).1 =
      (cats.filter (fun c => (runAttempts c.2 SCRAPE_RETRY_COUNT 1).isSome)).map
        (fun c => { propKey := c.1.key
                    propLabel := c.1.label
                    rows := (runAttempts c.2 SCRAPE_RETRY_COUNT 1).getD []
                    rowCount := ((runAttempts c.2 SCRAPE_RETRY_COUNT 1).getD []).length }) ∧
    (scrapeLoop cats).2.1 =
      (cats.filter (fun c => (runAttempts c.2 SCRAPE_RETRY_COUNT 1).isNone)).map
        (fun c => { propKey := c.1.key
                    propLabel := c.1.label
                    error := "Failed after 3 attempts" }) ∧
    (scrapeLoop cats).2.2 = ((scrapeLoop cats).1.map (fun r => r.rowCount)).sum := by
  induction cats with
  | nil => simp [scrapeLoop]
  | cons c rest ih =>
    obtain ⟨ih1, ih2, ih3⟩ := ih
    obtain ⟨option, f⟩ := c
    cases hr : runAttempts f SCRAPE_RETRY_COUNT 1 with
    | some rows => simp [scrapeLoop, hr, ih1, ih2, ih3]
    | none => simp [scrapeLoop, hr, ih1, ih2, ih3]

/-- The two-category scenario: a dummy collected row. -/
def scenarioRow : PropRow :=
  { propKey := "points", propLabel := "Points", dateISO := "2026-01-01",
    playerName := "Jane Doe", team := none, status := none, line := none,
    oddsOver := none, oddsUnder := none, projection := none, diff := none,
    dvp := none, hitRates := none, raw := [], rowSignature := "points|Jane Doe" }

/-- The two-category scenario: the discovered categories. -/
def scenarioCategories : List PropOption :=
  [{ label := "Points", key := "points" }, { label := "Assists", key := "assists" }]

/-- The two-category scenario: the first category succeeds with 50 rows on
every attempt, the second fails every attempt with SelectionNotFound. -/
def scenarioBehavior : PropOption → AttemptFun :=
  fun o _k =>
    if o.key = "points" then Except.ok (List.replicate 50 scenarioRow)
    else Except.error "SelectionNotFound"

/-- C3: over a non-empty discovery, every category failing all of its
bounded attempts contributes exactly one error entry without stopping the
loop, attempted counts every processed category, succeeded counts the
result list, rowsTotal sums the collected row counts of the successes, and
a category fails its retry loop exactly when all three attempts error; in
the concrete two-category scenario (first succeeds with 50 rows, second
exhausts retries) the summary is 2 attempted / 1 succeeded / 50 rows with
a single error for the second category. -/
theorem C3_orchestrator :
    (∀ (discovered : List PropOption) (behavior : PropOption → AttemptFun),
      discovered ≠ [] →
      (scrapeNbaPropsForDate discovered behavior {}).summary.propsAttempted =
        discovered.length ∧
      (scrapeNbaPropsForDate discovered behavior {}).summary.propsSucceeded =
        (scrapeNbaPropsForDate discovered behavior {}).results.length ∧
      (scrapeNbaPropsForDate discovered behavior {}).summary.rowsTotal =
        ((scrapeNbaPropsForDate discovered behavior {}).results.map
          (fun r => r.rowCount)).sum ∧
      (scrapeNbaPropsForDate discovered behavior {}).errors =
        (discovered.filter
            (fun o => (runAttempts (behavior o) SCRAPE_RETRY_COUNT 1).isNone)).map
          (fun o => { propKey := o.key
                      propLabel := o.label
                      error := "Failed after 3 attempts" }) ∧
      (scrapeNbaPropsForDate discovered behavior {}).results =
        (discovered.filter
            (fun o => (runAttempts (behavior o) SCRAPE_RETRY_COUNT 1).isSome)).map
          (fun o => { propKey := o.key
                      propLabel := o.label
                      rows := (runAttempts (behavior o) SCRAPE_RETRY_COUNT 1).getD []
                      rowCount := ((runAttempts (behavior o) SCRAPE_RETRY_COUNT 1).getD []).length }) ∧
      (∀ o, runAttempts (behavior o) SCRAPE_RETRY_COUNT 1 = none ↔
        ∀ k, 1 ≤ k → k ≤ SCRAPE_RETRY_COUNT → ∃ e, behavior o k = Except.error e)) ∧
    (scrapeNbaPropsForDate scenarioCategories scenarioBehavior {}).summary =
      { propsAttempted := 2, propsSucceeded := 1, rowsTotal := 50 } ∧
    (scrapeNbaPropsForDate scenarioCategories scenarioBehavior {}).errors =
      [{ propKey := "assists", propLabel := "Assists",
         error := "Failed after 3 attempts" }] := by
  refine ⟨?_, by decide, by decide⟩
  intro discovered behavior hne
  have hne2 : discovered.isEmpty = false := by
    cases discovered with
    | nil => exact absurd rfl hne
    | cons a l => rfl
  obtain ⟨h1, h2, h3⟩ := scrapeLoop_spec (discovered.map (fun o => (o, behavior o)))
  rw [List.filter_map, List.map_map] at h1 h2
  simp only [scrapeNbaPropsForDate, hne2, Bool.false_eq_true, if_false,
    Option.isSome_none, false_and, List.length_map]
  refine ⟨by trivial, by trivial, h3, ?_, ?_, ?_⟩
  · rw [h2]
    rfl
  · rw [h1]
    rfl
  · intro o
    rw [runAttempts_none_iff]
    constructor
    · intro h k hk1 hk2
      exact h k hk1 (by omega)
    · intro h k hk1 hk2
      exact h k hk1 (by omega)

/-- Witness for C3 applying the general part to the concrete scenario. -/
theorem C3_orchestrator_witness :
    scenarioCategories ≠ [] ∧
    (scrapeNbaPropsForDate scenarioCategories scenarioBehavior {}).summary.propsAttempted =
      scenarioCategories.length :=
  ⟨by decide, (C3_orchestrator.1 scenarioCategories scenarioBehavior (by decide)).1⟩

/-- C10: the query surface returns at most min(limit, 2000) rows, at most
500 with no requested limit, and an orderBy key outside the allowed
enumeration silently behaves exactly like ordering by player name. -/
theorem C10_query_limits :
    (∀ (table : List PropRowRecord) (opts : QueryOpts),
      (queryPropRows table opts).length ≤ min (opts.limit.getD 500) 2000) ∧
    (∀ (table : List PropRowRecord) (opts : QueryOpts), opts.limit = none →
      (queryPropRows table opts).length ≤ 500) ∧
    (∀ (table : List PropRowRecord) (opts : QueryOpts) (k : String),
      k ∉ ["player", "line", "diff", "projection", "dvp"] →
      queryPropRows table { opts with orderBy := some k } =
        queryPropRows table { opts with orderBy := some ("player") }) := by
  refine ⟨?_, ?_, ?_⟩
  · intro table opts
    simp only [queryPropRows]
    exact List.length_take_le _ _
  · intro table opts h
    have := List.length_take_le (min (opts.limit.getD 500) 2000)
      (sortByBool (rowLe (orderClauseFor opts.orderBy)) (table.filter (rowMatches opts)))
    simp only [queryPropRows]
    calc (List.take (min (opts.limit.getD 500) 2000)
            (sortByBool (rowLe (orderClauseFor opts.orderBy))
              (table.filter (rowMatches opts)))).length
        ≤ min (opts.limit.getD 500) 2000 := List.length_take_le _ _
      _ ≤ 500 := by rw [h]; simp
  · intro table opts k hk
    have h1 : k ≠ "player" := fun e => hk (by simp [e])
    have h2 : k ≠ "line" := fun e => hk (by simp [e])
    have h3 : k ≠ "diff" := fun e => hk (by simp [e])
    have h4 : k ≠ "projection" := fun e => hk (by simp [e])
    have h5 : k ≠ "dvp" := fun e => hk (by simp [e])
    have hc : orderClauseFor (some k) = OrderClause.playerAsc := by
      simp [orderClauseFor, h1, h2, h3, h4, h5]
    have hp : orderClauseFor (some ("player")) = OrderClause.playerAsc := by
      simp [orderClauseFor]
    have hm : rowMatches { opts with orderBy := some k } =
        rowMatches { opts with orderBy := some ("player") } := funext fun r => rfl
    simp only [queryPropRows, hc, hp, hm]

/-- Witness for C10 with a concrete out-of-enumeration sort key. -/
theorem C10_query_limits_witness :
    ("team" ∉ ["player", "line", "diff", "projection", "dvp"]) ∧
    queryPropRows [] { dateIso := "2026-01-01", orderBy := some "team" } =
      queryPropRows [] { dateIso := "2026-01-01", orderBy := some ("player") } :=
  ⟨by decide, C10_query_limits.2.2 [] { dateIso := "2026-01-01" } "team" (by decide)⟩

/-- The conflict update never touches the natural-key columns. -/
theorem naturalKey_updateMutable (old excluded : PersistedRow) :
    naturalKey (updateMutable old excluded) = naturalKey old := rfl

/-- Updating conflicting rows in place leaves the store's key sequence
unchanged. -/
theorem map_naturalKey_update (store : List PersistedRow) (row : PersistedRow) :
    ((store.map (fun r =>
        if naturalKey r == naturalKey row then updateMutable r row else r)).map
      naturalKey) = store.map naturalKey := by
  have hpt : ∀ r : PersistedRow,
      naturalKey (if naturalKey r == naturalKey row then updateMutable r row else r) =
        naturalKey r := by
    intro r
    by_cases hc : (naturalKey r == naturalKey row) = true
    · simp [hc, naturalKey_updateMutable]
    · simp [hc]
  induction store with
  | nil => rfl
  | cons a l ih =>
    simp only [List.map_cons]
    rw [hpt a, ih]

/-- On a key conflict, upsertOne updates in place and reports no insert. -/
theorem upsertOne_update (store : List PersistedRow) (row : PersistedRow)
    (h : naturalKey row ∈ store.map naturalKey) :
    upsertOne store row =
      (store.map (fun r =>
        if naturalKey r == naturalKey row then updateMutable r row else r), false) := by
  have ha : store.any (fun r => naturalKey r == naturalKey row) = true := by
    rw [List.any_eq_true]
    obtain ⟨r, hr, he⟩ := List.mem_map.mp h
    exact ⟨r, hr, by simp [he]⟩
  simp [upsertOne, ha]

/-- upsertOne never loses a key that was already present. -/
theorem upsertOne_keys_mono (store : List PersistedRow) (row : PersistedRow)
    (x : String × String × String × String × ℚ × ℚ × ℚ)
    (h : x ∈ store.map naturalKey) : x ∈ (upsertOne store row).1.map naturalKey := by
  by_cases hc : naturalKey row ∈ store.map naturalKey
  · rw [upsertOne_update store row hc]
    rw [show ((store.map (fun r =>
        if naturalKey r == naturalKey row then updateMutable r row else r), false)).1 =
      store.map (fun r =>
        if naturalKey r == naturalKey row then updateMutable r row else r) from rfl]
    rw [map_naturalKey_update]
    exact h
  · have ha : store.any (fun r => naturalKey r == naturalKey row) = false := by
      rw [List.any_eq_false]
      intro r hr
      simp only [beq_iff_eq]
      intro he
      exact hc (he ▸ List.mem_map_of_mem naturalKey hr)
    simp only [upsertOne, ha, Bool.false_eq_true, if_false]
    simp [h]

/-- After upsertOne the row's key is present. -/
theorem upsertOne_key_mem (store : List PersistedRow) (row : PersistedRow) :
    naturalKey row ∈ (upsertOne store row).1.map naturalKey := by
  by_cases hc : naturalKey row ∈ store.map naturalKey
  · rw [upsertOne_update store row hc]
    rw [show ((store.map (fun r =>
        if naturalKey r == naturalKey row then updateMutable r row else r), false)).1 =
      store.map (fun r =>
        if naturalKey r == naturalKey row then updateMutable r row else r) from rfl]
    rw [map_naturalKey_update]
    exact hc
  · have ha : store.any (fun r => naturalKey r == naturalKey row) = false := by
      rw [List.any_eq_false]
      intro r hr
      simp only [beq_iff_eq]
      intro he
      exact hc (he ▸ List.mem_map_of_mem naturalKey hr)
    simp [upsertOne, ha]

/-- upsertBatch never loses a key that was already present. -/
theorem upsertBatch_keys_mono (rows : List PersistedRow) :
    ∀ (store : List PersistedRow) (x : String × String × String × String × ℚ × ℚ × ℚ),
    x ∈ store.map naturalKey → x ∈ (upsertBatch store rows).1.map naturalKey := by
  induction rows with
  | nil => intro store x h; exact h
  | cons row rest ih =>
    intro store x h
    exact ih (upsertOne store row).1 x (upsertOne_keys_mono store row x h)

/-- After upsertBatch every batched row's key is present. -/
theorem upsertBatch_key_mem (rows : List PersistedRow) :
    ∀ (store : List PersistedRow) (row : PersistedRow), row ∈ rows →
    naturalKey row ∈ (upsertBatch store rows).1.map naturalKey := by
  induction rows with
  | nil => intro store row h; exact absurd h (List.not_mem_nil row)
  | cons hd rest ih =>
    intro store row h
    rcases List.mem_cons.mp h with h | h
    · subst h
      exact upsertBatch_keys_mono rest (upsertOne store row).1 (naturalKey row)
        (upsertOne_key_mem store row)
    · exact ih (upsertOne store hd).1 row h

/-- When every batched key is already present, the whole batch is counted
as updates: zero inserts, one update per row, and the store's key sequence
(hence its row count) unchanged. -/
theorem upsertBatch_all_present (rows : List PersistedRow) :
    ∀ (store : List PersistedRow),
    (∀ row ∈ rows, naturalKey row ∈ store.map naturalKey) →
    (upsertBatch store rows).1.map naturalKey = store.map naturalKey ∧
    (upsertBatch store rows).2.1 = 0 ∧
    (upsertBatch store rows).2.2 = rows.length := by
  induction rows with
  | nil => intro store _; exact ⟨rfl, rfl, rfl⟩
  | cons row rest ih =>
    intro store h
    have hmem := h row (List.mem_cons_self row rest)
    have hone := upsertOne_update store row hmem
    have hkeys : (upsertOne store row).1.map naturalKey = store.map naturalKey := by
      rw [hone]
      exact map_naturalKey_update store row
    have hrest := ih (upsertOne store row).1
      (fun r hr => hkeys ▸ h r (List.mem_cons_of_mem row hr))
    have hflag : (upsertOne store row).2 = false := by rw [hone]
    refine ⟨?_, ?_, ?_⟩
    · simp only [upsertBatch]
      rw [hrest.1, hkeys]
    · simp only [upsertBatch]
      rw [hflag, hrest.2.1]
      simp
    · simp only [upsertBatch]
      rw [hflag, hrest.2.2]
      simp only [Bool.false_eq_true, if_false, List.length_cons]
      omega

/-- C2: persisting the same completed session a second time inserts zero
new records — every row of the second pass hits its natural key and is
counted as an update, the key sequence and row count of the store are
unchanged — and the conflict update overwrites exactly the mutable columns
(label, team, status, projection, diff, dvp, hit rates, raw, signature and
the owning run) while leaving the natural-key columns untouched. -/
theorem C2_upsert_idempotent (runId1 runId2 sport : String)
    (store : List PersistedRow) (session : ScrapeSession) :
    (persistSessionRows runId2 sport
        (persistSessionRows runId1 sport store session).1 session).2.1 = 0 ∧
    (persistSessionRows runId2 sport
        (persistSessionRows runId1 sport store session).1 session).2.2 =
      (sessionRows session).length ∧
    (persistSessionRows runId2 sport
        (persistSessionRows runId1 sport store session).1 session).1.length =
      (persistSessionRows runId1 sport store session).1.length ∧
    (persistSessionRows runId2 sport
        (persistSessionRows runId1 sport store session).1 session).1.map naturalKey =
      (persistSessionRows runId1 sport store session).1.map naturalKey ∧
    (∀ old excluded : PersistedRow,
      naturalKey (updateMutable old excluded) = naturalKey old ∧
      (updateMutable old excluded).runId = excluded.runId ∧
      (updateMutable old excluded).propLabel = excluded.propLabel ∧
      (updateMutable old excluded).team = excluded.team ∧
      (updateMutable old excluded).status = excluded.status ∧
      (updateMutable old excluded).projection = excluded.projection ∧
      (updateMutable old excluded).diff = excluded.diff ∧
      (updateMutable old excluded).dvp = excluded.dvp ∧
      (updateMutable old excluded).hitRates = excluded.hitRates ∧
      (updateMutable old excluded).raw = excluded.raw ∧
      (updateMutable old excluded).rowSignature = excluded.rowSignature ∧
      (updateMutable old excluded).sport = old.sport ∧
      (updateMutable old excluded).dateIso = old.dateIso ∧
      (updateMutable old excluded).propKey = old.propKey ∧
      (updateMutable old excluded).playerName = old.playerName ∧
      (updateMutable old excluded).line = old.line ∧
      (updateMutable old excluded).oddsOver = old.oddsOver ∧
      (updateMutable old excluded).oddsUnder = old.oddsUnder) := by
  have hkey1 : ∀ row ∈ (sessionRows session).map (rowToPersisted runId1 sport),
      naturalKey row ∈ (persistSessionRows runId1 sport store session).1.map naturalKey :=
    fun row hrow => upsertBatch_key_mem _ store row hrow
  have hsamekey : ∀ r : PropRow, naturalKey (rowToPersisted runId2 sport r) =
      naturalKey (rowToPersisted runId1 sport r) := fun r => rfl
  have hpresent : ∀ row ∈ (sessionRows session).map (rowToPersisted runId2 sport),
      naturalKey row ∈ (persistSessionRows runId1 sport store session).1.map naturalKey := by
    intro row hrow
    obtain ⟨r, hr, he⟩ := List.mem_map.mp hrow
    subst he
    rw [hsamekey r]
    exact hkey1 (rowToPersisted runId1 sport r) (List.mem_map_of_mem _ hr)
  obtain ⟨hk, hi, hu⟩ :=
    upsertBatch_all_present ((sessionRows session).map (rowToPersisted runId2 sport))
      (persistSessionRows runId1 sport store session).1 hpresent
  refine ⟨hi, ?_, ?_, hk, ?_⟩
  · rw [show (persistSessionRows runId2 sport
        (persistSessionRows runId1 sport store session).1 session) =
      upsertBatch (persistSessionRows runId1 sport store session).1
        ((sessionRows session).map (rowToPersisted runId2 sport)) from rfl]
    rw [hu, List.length_map]
  · have := congrArg List.length hk
    simpa using this
  · intro old excluded
    exact ⟨rfl, rfl, rfl, rfl, rfl, rfl, rfl, rfl, rfl, rfl, rfl, rfl, rfl, rfl, rfl,
      rfl, rfl, rfl⟩

/-- setMapped touches only the assigned field. -/
theorem setMapped_playerName (m : MappedFields) (f : HeaderField) (v : String) :
    (setMapped m f v).playerName =
      if f = HeaderField.playerName then some v else m.playerName := by
  cases f <;> rfl

/-- The mapping loop leaves the player field untouched when no header
classifies to it. -/
theorem mapFields_foldl_playerName (pairs : List (String × String)) :
    ∀ (m : MappedFields) (hr : List (String × Option ℚ)),
    (∀ p ∈ pairs, headerField p.1 ≠ some HeaderField.playerName) →
    (pairs.foldl mapFieldsStep (m, hr)).1.playerName = m.playerName := by
  induction pairs with
  | nil => intro m hr _; rfl
  | cons p rest ih =>
    intro m hr h
    have hp := h p (List.mem_cons_self p rest)
    have hrest := fun q hq => h q (List.mem_cons_of_mem p hq)
    simp only [List.foldl_cons]
    cases hf : headerField p.1 with
    | some f =>
      have hfp : f ≠ HeaderField.playerName := by
        intro he
        exact hp (he ▸ hf)
      rw [show mapFieldsStep (m, hr) p = (setMapped m f p.2, hr) by
        simp [mapFieldsStep, hf]]
      rw [ih (setMapped m f p.2) hr hrest, setMapped_playerName]
      simp [hfp]
    | none =>
      cases hk : hitRateKey p.1 with
      | some k =>
        rw [show mapFieldsStep (m, hr) p = (m, jsRecordSet hr k (parseNumber p.2)) by
          simp [mapFieldsStep, hf, hk]]
        exact ih m _ hrest
      | none =>
        rw [show mapFieldsStep (m, hr) p = (m, hr) by simp [mapFieldsStep, hf, hk]]
        exact ih m hr hrest

/-- No classifiable player header means no mapped player field. -/
theorem mapFields_playerName_none (headers cells : List String)
    (h : ∀ p ∈ headers.zip cells, headerField p.1 ≠ some HeaderField.playerName) :
    (mapFields headers cells).1.playerName = none :=
  mapFields_foldl_playerName (headers.zip cells) {} [] h

/-- C7: in a grid where no header classifies to the player field, the
normalizer uses the first non-empty, non-digit-leading cell as the player
cell (its parsed name becomes the row's player name), and returns null when
no such cell exists. -/
theorem C7_player_fallback (headers cells : List String) (context : RowContext)
    (h : ∀ p ∈ headers.zip cells, headerField p.1 ≠ some HeaderField.playerName) :
    (∀ c, cells.find? fallbackCell = some c →
      ∃ row, normalizeRow headers cells context = some row ∧
        row.playerName = (parsePlayerCell (trimJs c)).playerName) ∧
    (cells.find? fallbackCell = none → normalizeRow headers cells context = none) := by
  have hm := mapFields_playerName_none headers cells h
  constructor
  · intro c hfind
    have hcne : cells.isEmpty = false := by
      have := List.mem_of_find?_eq_some hfind
      cases cells
      · exact absurd this (List.not_mem_nil c)
      · rfl
    have hcp : fallbackCell c = true := List.find?_some hfind
    have htc : ¬ trimJs c = "" := by
      intro he
      rw [fallbackCell, he] at hcp
      exact absurd hcp (by decide)
    have hstep : normalizeRow headers cells context =
        some (normalizeRowFrom headers cells context (trimJs c)) := by
      simp only [normalizeRow, hcne, Bool.false_eq_true, if_false, hm, strTruthy,
        hfind, htc, ite_false]
    exact ⟨normalizeRowFrom headers cells context (trimJs c), hstep, rfl⟩
  · intro hfind
    cases hce : cells.isEmpty with
    | true => simp [normalizeRow, hce]
    | false => simp [normalizeRow, hce, hm, strTruthy, hfind]

/-- Witness for C7 on a concrete grid with no player header. -/
theorem C7_player_fallback_witness :
    (∀ p ∈ (["Line"] : List String).zip (["9.5", "Jane Doe"] : List String),
      headerField p.1 ≠ some HeaderField.playerName) ∧
    (∃ row, normalizeRow ["Line"] ["9.5", "Jane Doe"]
        { propKey := "pts", propLabel := "Pts", dateISO := "2026-01-01" } = some row ∧
      row.playerName = (parsePlayerCell (trimJs "Jane Doe")).playerName) :=
  ⟨by decide,
    (C7_player_fallback ["Line"] ["9.5", "Jane Doe"]
      { propKey := "pts", propLabel := "Pts", dateISO := "2026-01-01" } (by decide)).1
      "Jane Doe" (by decide)⟩

/-- C8 counterexample: a bulk read yielding one body row whose cells
normalize to no row (no usable player cell) still enters the scroll path —
the collector scrolls three times despite the non-empty bulk read,
refuting the claim that any non-empty bulk read returns immediately
without scrolling. -/
theorem C8_counterexample :
    ({ headers := ["Line"], rows := [["123"]] } : BatchRead).rows.length = 1 ∧
    (collectAllRowsByScrolling { headers := ["Line"], rows := [["123"]] } ["Line"]
      "pts" "Pts" "2026-01-01" (fun _ => [])).scrollAttempts = 3 := by decide

/-- C8 (amended): the collector returns the fast path's normalized,
deduplicated result with zero scroll iterations whenever that result is
non-empty, and the slow scroll path runs only when the fast-path result is
empty. -/
theorem C8_fast_path (batch : BatchRead) (headerTexts : List String)
    (pk pl d : String) (visible : Nat → List (List String)) :
    (collectFastRows batch headerTexts { propKey := pk, propLabel := pl, dateISO := d } ≠ [] →
      collectAllRowsByScrolling batch headerTexts pk pl d visible =
        { rows := collectFastRows batch headerTexts
            { propKey := pk, propLabel := pl, dateISO := d },
          scrollAttempts := 0, finalStable := 0, scrolledToTop := false }) ∧
    (collectFastRows batch headerTexts { propKey := pk, propLabel := pl, dateISO := d } = [] →
      (collectAllRowsByScrolling batch headerTexts pk pl d visible).scrolledToTop = true) := by
  constructor
  · intro hfast
    have h1 : batch.rows.isEmpty = false := by
      cases hb : batch.rows with
      | nil =>
        exfalso
        apply hfast
        rw [collectFastRows, hb]
        rfl
      | cons a l => rfl
    have h2 : (collectFastRows batch headerTexts
        { propKey := pk, propLabel := pl, dateISO := d }).isEmpty = false := by
      cases hfc : collectFastRows batch headerTexts
          { propKey := pk, propLabel := pl, dateISO := d } with
      | nil => exact absurd hfc hfast
      | cons a l => rfl
    simp [collectAllRowsByScrolling, h1, h2]
  · intro hfast
    have h2 : (collectFastRows batch headerTexts
        { propKey := pk, propLabel := pl, dateISO := d }).isEmpty = true := by
      rw [hfast]
      rfl
    simp [collectAllRowsByScrolling, h2]

/-- Witness for C8 on a concrete fully rendered table. -/
theorem C8_fast_path_witness :
    collectFastRows { headers := ["Player"], rows := [["Jane"]] } ["Player"]
      { propKey := "pts", propLabel := "Pts", dateISO := "2026-01-01" } ≠ [] ∧
    collectAllRowsByScrolling { headers := ["Player"], rows := [["Jane"]] } ["Player"]
      "pts" "Pts" "2026-01-01" (fun _ => []) =
      { rows := collectFastRows { headers := ["Player"], rows := [["Jane"]] } ["Player"]
          { propKey := "pts", propLabel := "Pts", dateISO := "2026-01-01" },
        scrollAttempts := 0, finalStable := 0, scrolledToTop := false } :=
  ⟨by decide,
    (C8_fast_path { headers := ["Player"], rows := [["Jane"]] } ["Player"]
      "pts" "Pts" "2026-01-01" (fun _ => [])).1 (by decide)⟩

/-- The scroll loop runs at most its remaining fuel, and an early exit
happens only with the stability counter at the threshold (three
consecutive iterations that contributed no new rows). -/
theorem slowLoop_le (visible : Nat → List (List String)) (headers : List String)
    (context : RowContext) :
    ∀ (fuel t st : Nat) (seen : List String) (acc : List PropRow),
      st ≤ STABLE_SCROLL_THRESHOLD →
      (slowLoop visible headers context fuel t st seen acc).2.1 ≤ t + fuel ∧
      ((slowLoop visible headers context fuel t st seen acc).2.1 < t + fuel →
        (slowLoop visible headers context fuel t st seen acc).2.2 =
          STABLE_SCROLL_THRESHOLD) := by
  intro fuel
  induction fuel with
  | zero =>
    intro t st seen acc hst
    constructor
    · simp [slowLoop]
    · intro hlt
      simp only [slowLoop] at hlt
      omega
  | succ fuel ih =>
    intro t st seen acc hst
    by_cases hlt : st < STABLE_SCROLL_THRESHOLD
    · simp only [slowLoop, hlt, if_true]
      have hst1 : (if (mergeRows headers context (visible t) seen).1.length = 0
          then st + 1 else 0) ≤ STABLE_SCROLL_THRESHOLD := by
        split
        · omega
        · simp [STABLE_SCROLL_THRESHOLD]
      obtain ⟨ha, hb⟩ := ih (t + 1)
        (if (mergeRows headers context (visible t) seen).1.length = 0 then st + 1 else 0)
        (mergeRows headers context (visible t) seen).2
        (acc ++ (mergeRows headers context (visible t) seen).1) hst1
      constructor
      · calc _ ≤ (t + 1) + fuel := ha
          _ = t + (fuel + 1) := by omega
      · intro hlt2
        exact hb (by omega)
    · simp only [slowLoop, hlt, if_false]
      constructor
      · omega
      · intro _
        have : st = STABLE_SCROLL_THRESHOLD := by
          simp only [STABLE_SCROLL_THRESHOLD] at hst hlt ⊢
          omega
        exact this

/-- With nothing visible at any iteration, the scroll loop stops after
exactly the stability threshold of empty iterations. -/
theorem slowLoop_empty_visible (visible : Nat → List (List String))
    (headers : List String) (context : RowContext) (hv : ∀ t, visible t = []) :
    ∀ (fuel t st : Nat) (seen : List String) (acc : List PropRow),
      st ≤ STABLE_SCROLL_THRESHOLD → STABLE_SCROLL_THRESHOLD - st ≤ fuel →
      slowLoop visible headers context fuel t st seen acc =
        (acc, t + (STABLE_SCROLL_THRESHOLD - st), STABLE_SCROLL_THRESHOLD) := by
  intro fuel
  induction fuel with
  | zero =>
    intro t st seen acc hst hf
    have hst3 : st = STABLE_SCROLL_THRESHOLD := by omega
    simp [slowLoop, hst3]
  | succ fuel ih =>
    intro t st seen acc hst hf
    by_cases hlt : st < STABLE_SCROLL_THRESHOLD
    · simp only [slowLoop, hlt, if_true, hv t]
      rw [show mergeRows headers context [] seen = ([], seen) from rfl]
      simp only [List.length_nil, if_true, List.append_nil]
      rw [ih (t + 1) (st + 1) seen acc (by omega) (by omega)]
      have : t + 1 + (STABLE_SCROLL_THRESHOLD - (st + 1)) =
          t + (STABLE_SCROLL_THRESHOLD - st) := by
        simp only [STABLE_SCROLL_THRESHOLD] at hlt ⊢
        omega
      rw [this]
    · have hst3 : st = STABLE_SCROLL_THRESHOLD := by omega
      simp [slowLoop, hlt, hst3]

/-- C9: every collection pass performs at most MAX_SCROLL_ATTEMPTS (120)
scroll iterations; a slow-path pass that stops early does so with the
stability counter at STABLE_SCROLL_THRESHOLD (3), i.e. after three
consecutive iterations contributing no new rows; the slow path always ends
by resetting the scroll position to the top; and with nothing ever visible
the slow path stops after exactly 3 iterations. -/
theorem C9_slow_path_bounded (batch : BatchRead) (headerTexts : List String)
    (pk pl d : String) (visible : Nat → List (List String)) :
    (collectAllRowsByScrolling batch headerTexts pk pl d visible).scrollAttempts ≤
      MAX_SCROLL_ATTEMPTS ∧
    ((collectAllRowsByScrolling batch headerTexts pk pl d visible).scrolledToTop = true →
      (collectAllRowsByScrolling batch headerTexts pk pl d visible).scrollAttempts <
        MAX_SCROLL_ATTEMPTS →
      (collectAllRowsByScrolling batch headerTexts pk pl d visible).finalStable =
        STABLE_SCROLL_THRESHOLD) ∧
    (collectFastRows batch headerTexts { propKey := pk, propLabel := pl, dateISO := d } = [] →
      (collectAllRowsByScrolling batch headerTexts pk pl d visible).scrolledToTop = true) ∧
    ((∀ t, visible t = []) →
      collectFastRows batch headerTexts { propKey := pk, propLabel := pl, dateISO := d } = [] →
      (collectAllRowsByScrolling batch headerTexts pk pl d visible).scrollAttempts =
        STABLE_SCROLL_THRESHOLD) := by
  by_cases hcond : (!batch.rows.isEmpty) = true ∧
      (!(collectFastRows batch headerTexts
        { propKey := pk, propLabel := pl, dateISO := d }).isEmpty) = true
  · have hres : collectAllRowsByScrolling batch headerTexts pk pl d visible =
        { rows := collectFastRows batch headerTexts
            { propKey := pk, propLabel := pl, dateISO := d },
          scrollAttempts := 0, finalStable := 0, scrolledToTop := false } := by
      simp only [collectAllRowsByScrolling, hcond.1, hcond.2, and_self, if_true]
    refine ⟨?_, ?_, ?_, ?_⟩
    · rw [hres]
      simp [MAX_SCROLL_ATTEMPTS]
    · rw [hres]
      intro hfalse
      simp at hfalse
    · intro hfast
      exfalso
      have := hcond.2
      rw [hfast] at this
      exact absurd this (by decide)
    · intro _ hfast
      exfalso
      have := hcond.2
      rw [hfast] at this
      exact absurd this (by decide)
  · have hres : collectAllRowsByScrolling batch headerTexts pk pl d visible =
        { rows := (slowLoop visible headerTexts
            { propKey := pk, propLabel := pl, dateISO := d }
            MAX_SCROLL_ATTEMPTS 0 0 [] []).1,
          scrollAttempts := (slowLoop visible headerTexts
            { propKey := pk, propLabel := pl, dateISO := d }
            MAX_SCROLL_ATTEMPTS 0 0 [] []).2.1,
          finalStable := (slowLoop visible headerTexts
            { propKey := pk, propLabel := pl, dateISO := d }
            MAX_SCROLL_ATTEMPTS 0 0 [] []).2.2,
          scrolledToTop := true } := by
      simp only [collectAllRowsByScrolling]
      rw [if_neg hcond]
    obtain ⟨ha, hb⟩ := slowLoop_le visible headerTexts
      { propKey := pk, propLabel := pl, dateISO := d }
      MAX_SCROLL_ATTEMPTS 0 0 [] [] (by simp [STABLE_SCROLL_THRESHOLD])
    refine ⟨?_, ?_, ?_, ?_⟩
    · rw [hres]
      simpa using ha
    · rw [hres]
      intro _ hlt
      exact hb (by simpa using hlt)
    · intro _
      rw [hres]
    · intro hv _
      rw [hres]
      have := slowLoop_empty_visible visible headerTexts
        { propKey := pk, propLabel := pl, dateISO := d } hv
        MAX_SCROLL_ATTEMPTS 0 0 [] [] (by simp [STABLE_SCROLL_THRESHOLD])
        (by simp [STABLE_SCROLL_THRESHOLD, MAX_SCROLL_ATTEMPTS])
      rw [this]
      simp

/-- Witness for C9 at a concrete empty page. -/
theorem C9_slow_path_bounded_witness :
    (collectAllRowsByScrolling { headers := [], rows := [] } ["Line"]
      "pts" "Pts" "2026-01-01" (fun _ => [])).scrollAttempts ≤ MAX_SCROLL_ATTEMPTS ∧
    (collectAllRowsByScrolling { headers := [], rows := [] } ["Line"]
      "pts" "Pts" "2026-01-01" (fun _ => [])).scrollAttempts = STABLE_SCROLL_THRESHOLD :=
  ⟨(C9_slow_path_bounded { headers := [], rows := [] } ["Line"]
      "pts" "Pts" "2026-01-01" (fun _ => [])).1,
    (C9_slow_path_bounded { headers := [], rows := [] } ["Line"]
      "pts" "Pts" "2026-01-01" (fun _ => [])).2.2.2 (fun _ => rfl) (by decide)⟩

/-- The merge loop accepts only rows with unseen signatures: the accepted
rows avoid the incoming seen set, carry pairwise distinct signatures, and
everything (old and new) lands in the outgoing seen set. -/
theorem mergeRows_spec (headers : List String) (context : RowContext) :
    ∀ (rows : List (List String)) (seen : List String),
      (∀ r ∈ (mergeRows headers context rows seen).1, r.rowSignature ∉ seen) ∧
      ((mergeRows headers context rows seen).1.map (fun r => r.rowSignature)).Nodup ∧
      (∀ s ∈ seen, s ∈ (mergeRows headers context rows seen).2) ∧
      (∀ r ∈ (mergeRows headers context rows seen).1,
        r.rowSignature ∈ (mergeRows headers context rows seen).2) := by
  intro rows
  induction rows with
  | nil =>
    intro seen
    refine ⟨?_, ?_, ?_, ?_⟩ <;> simp [mergeRows]
  | cons cells rest ih =>
    intro seen
    cases hn : normalizeRow headers cells context with
    | none =>
      simp only [mergeRows, hn]
      exact ih seen
    | some r =>
      by_cases hs : r.rowSignature ∈ seen
      · simp only [mergeRows, hn, hs, if_true]
        exact ih seen
      · simp only [mergeRows, hn, hs, if_false]
        obtain ⟨ih1, ih2, ih3, ih4⟩ := ih (r.rowSignature :: seen)
        refine ⟨?_, ?_, ?_, ?_⟩
        · intro x hx
          rcases List.mem_cons.mp hx with hx | hx
          · rw [hx]
            exact hs
          · intro hmem
            exact ih1 x hx (List.mem_cons_of_mem _ hmem)
        · rw [List.map_cons, List.nodup_cons]
          refine ⟨?_, ih2⟩
          intro hmem
          obtain ⟨x, hx, hxe⟩ := List.mem_map.mp hmem
          exact ih1 x hx (hxe ▸ List.mem_cons_self _ _)
        · intro s hsm
          exact ih3 s (List.mem_cons_of_mem _ hsm)
        · intro x hx
          rcases List.mem_cons.mp hx with hx | hx
          · rw [hx]
            exact ih3 r.rowSignature (List.mem_cons_self _ _)
          · exact ih4 x hx

/-- The scroll loop's accumulator keeps pairwise distinct signatures. -/
theorem slowLoop_nodup (visible : Nat → List (List String)) (headers : List String)
    (context : RowContext) :
    ∀ (fuel t st : Nat) (seen : List String) (acc : List PropRow),
      (acc.map (fun r => r.rowSignature)).Nodup →
      (∀ r ∈ acc, r.rowSignature ∈ seen) →
      ((slowLoop visible headers context fuel t st seen acc).1.map
        (fun r => r.rowSignature)).Nodup := by
  intro fuel
  induction fuel with
  | zero =>
    intro t st seen acc h1 _
    simpa [slowLoop] using h1
  | succ fuel ih =>
    intro t st seen acc h1 h2
    by_cases hlt : st < STABLE_SCROLL_THRESHOLD
    · simp only [slowLoop, hlt, if_true]
      obtain ⟨m1, m2, m3, m4⟩ := mergeRows_spec headers context (visible t) seen
      apply ih
      · rw [List.map_append, List.nodup_append]
        refine ⟨h1, m2, ?_⟩
        intro s hs1 hs2
        obtain ⟨x, hx, hxe⟩ := List.mem_map.mp hs1
        obtain ⟨y, hy, hye⟩ := List.mem_map.mp hs2
        exact m1 y hy (by rw [hye, ← hxe]; exact h2 x hx)
      · intro r hr
        rcases List.mem_append.mp hr with hr | hr
        · exact m3 r.rowSignature (h2 r hr)
        · exact m4 r hr
    · simp only [slowLoop, hlt, if_false]
      exact h1

/-- C1: the row signature is a deterministic function of the category key
and the (playerName, team, line, oddsOver, oddsUnder) fields — with the
documented fallback to a prefix of the raw values when at most one of
those fields is available beyond the key — and no collection pass (fast
bulk read or slow scroll path) ever returns two rows with equal
signatures. -/
theorem C1_signature_dedup :
    (∀ (key : String) (r1 r2 : PropRow),
      r1.playerName = r2.playerName → r1.team = r2.team → r1.line = r2.line →
      r1.oddsOver = r2.oddsOver → r1.oddsUnder = r2.oddsUnder →
      (2 < (sigBaseParts key r1).length ∨
        (r1.raw.map Prod.snd).take 5 = (r2.raw.map Prod.snd).take 5) →
      makeRowSignature key r1 = makeRowSignature key r2) ∧
    (∀ (batch : BatchRead) (headerTexts : List String) (pk pl d : String)
      (visible : Nat → List (List String)),
      ((collectAllRowsByScrolling batch headerTexts pk pl d visible).rows.map
        (fun r => r.rowSignature)).Nodup) := by
  constructor
  · intro key r1 r2 h1 h2 h3 h4 h5 h6
    have hb : sigBaseParts key r1 = sigBaseParts key r2 := by
      unfold sigBaseParts
      rw [h1, h2, h3, h4, h5]
    rcases h6 with h6 | h6
    · have hgt : ¬ (sigBaseParts key r2).length ≤ 2 := by
        rw [← hb]
        omega
      simp only [makeRowSignature, hb, hgt, if_false]
    · simp only [makeRowSignature, hb, h6]
  · intro batch headerTexts pk pl d visible
    by_cases hcond : (!batch.rows.isEmpty) = true ∧
        (!(collectFastRows batch headerTexts
          { propKey := pk, propLabel := pl, dateISO := d }).isEmpty) = true
    · simp only [collectAllRowsByScrolling, hcond.1, hcond.2, and_self, if_true]
      exact (mergeRows_spec _ _ batch.rows []).2.1
    · simp only [collectAllRowsByScrolling]
      rw [if_neg hcond]
      exact slowLoop_nodup visible headerTexts _ MAX_SCROLL_ATTEMPTS 0 0 [] []
        (by simp) (by simp)

/-- Witness for C1 at two concrete rows with equal identifying fields. -/
theorem C1_signature_dedup_witness :
    scenarioRow.playerName = scenarioRow.playerName ∧
    makeRowSignature "points" scenarioRow =
      makeRowSignature "points" { scenarioRow with propLabel := "PTS" } :=
  ⟨rfl, C1_signature_dedup.1 "points" scenarioRow
    { scenarioRow with propLabel := "PTS" } rfl rfl rfl rfl rfl (Or.inr rfl)⟩

/-- Witness for C2 — it has no binder-level hypothesis, but instantiate it
anyway at a concrete one-row session and read off the counts. -/
theorem C2_upsert_idempotent_witness :
    (persistSessionRows "run2" "nba"
        (persistSessionRows "run1" "nba" []
          { results := [{ propKey := "points", propLabel := "Points",
                          rows := [scenarioRow], rowCount := 1 }],
            errors := [],
            summary := { propsAttempted := 1, propsSucceeded := 1, rowsTotal := 1 } }).1
        { results := [{ propKey := "points", propLabel := "Points",
                        rows := [scenarioRow], rowCount := 1 }],
          errors := [],
          summary := { propsAttempted := 1, propsSucceeded := 1, rowsTotal := 1 } }).2.1 = 0 :=
  (C2_upsert_idempotent "run1" "run2" "nba" []
    { results := [{ propKey := "points", propLabel := "Points",
                    rows := [scenarioRow], rowCount := 1 }],
      errors := [],
      summary := { propsAttempted := 1, propsSucceeded := 1, rowsTotal := 1 } }).1

end PropsScraper
